import Mathlib

/-!
Verification of the per-account transaction engine of `olegabu/payments-engine`.

The data model and operations below are a shallow embedding of
`src/transaction.rs` and `src/account.rs`:

* the Rust `f64` monetary accumulator is embedded as exact rationals `ℚ`
  (the arithmetic performed by the code, without floating-point rounding);
* the per-account `HashMap<TransactionId, Transaction>` is embedded as a
  duplicate-free association list with insert-overwrite semantics;
* Rust methods taking `&mut self` and returning `Result<(), Error>` are
  embedded as functions `Account → Transaction → Account × Option Error`
  returning the post-state together with `none` on `Ok(())` and
  `some e` on `Err(e)`; the post-state records any mutation performed
  before an early `return Err`.
-/

/-- `pub type AccountId = u16` in `src/transaction.rs` (the numeric bound is
immaterial to every property below). -/
abbrev AccountId := Nat

/-- `pub type TransactionId = u32` in `src/transaction.rs`. -/
abbrev TransactionId := Nat

/-- `pub type Money = f64` in `src/transaction.rs`, embedded as exact
rationals. -/
abbrev Money := ℚ

/-- `enum TransactionType` in `src/transaction.rs`. -/
inductive TransactionType where
  | Deposit
  | Withdrawal
  | Dispute
  | Resolve
  | Chargeback
deriving DecidableEq

/-- `struct Transaction` in `src/transaction.rs`: `id` (`tx`), `account_id`
(`client`), `transaction_type` (`type`), optional `amount`, and the
serde-skipped `disputed` flag (always `false` on deserialized input). -/
structure Transaction where
  id : TransactionId
  account_id : AccountId
  transaction_type : TransactionType
  amount : Option Money
  disputed : Bool
deriving DecidableEq

/-- `enum Error` in `src/account.rs`. -/
inductive Error where
  | AccountLocked (id : AccountId)
  | TransactionNotFound (id : TransactionId)
  | InsufficientFunds (id : AccountId)
  | AmountMissingWhenRequired (id : TransactionId)
  | AmountPresentWhenAmbiguous (id : TransactionId)
  | InvalidTransactionState (id : TransactionId)
  | InvalidTransactionType (id : TransactionId)
deriving DecidableEq

/-- `struct Account` in `src/account.rs`; the `HashMap` of transactions is
embedded as a duplicate-free list looked up by `Transaction.id`. -/
structure Account where
  id : AccountId
  available : Money
  held : Money
  total : Money
  locked : Bool
  transactions : List Transaction
deriving DecidableEq

/-- `HashMap::insert(transaction.id, transaction)`: overwrite any previous
entry with the same id. -/
def insertTx (ts : List Transaction) (t : Transaction) : List Transaction :=
  t :: ts.filter (fun x => x.id != t.id)

/-- `HashMap::get(&id)` keyed by `Transaction.id`. -/
def lookupTx (ts : List Transaction) (i : TransactionId) : Option Transaction :=
  ts.find? (fun x => x.id == i)

/-- `HashMap::get_mut(&id)` followed by a field mutation of the stored
transaction: rewrite every entry whose id is `i` (at most one in a
duplicate-free list). -/
def updateTx (ts : List Transaction) (i : TransactionId)
    (f : Transaction → Transaction) : List Transaction :=
  ts.map (fun x => if x.id == i then f x else x)

/-- `Account::new` in `src/account.rs`. -/
def Account.new (id : AccountId) : Account :=
  { id := id
    available := 0
    held := 0
    total := 0
    locked := false
    transactions := [] }

/-- `Account::add_transaction` in `src/account.rs`. -/
def Account.add_transaction (a : Account) (t : Transaction) : Account :=
  { a with transactions := insertTx a.transactions t }

/-- `Account::deposit` in `src/account.rs`. -/
def Account.deposit (a : Account) (t : Transaction) : Account × Option Error :=
  match t.amount with
  | some amount =>
      (({ a with
            available := a.available + amount
            total := a.total + amount }).add_transaction t, none)
  | none => (a, some (Error.AmountMissingWhenRequired t.id))

/-- `Account::withdraw` in `src/account.rs`: the candidate balance
`available - amount` is tested against zero before any mutation. -/
def Account.withdraw (a : Account) (t : Transaction) : Account × Option Error :=
  match t.amount with
  | some amount =>
      if a.available - amount < 0 then
        (a, some (Error.InsufficientFunds a.id))
      else
        (({ a with
              available := a.available - amount
              total := a.total - amount }).add_transaction t, none)
  | none => (a, some (Error.AmountMissingWhenRequired t.id))

/-- `Account::dispute` in `src/account.rs`.  The stored transaction's
`disputed` flag is set before its amount is unwrapped, exactly as in the
source (lines 134–136). -/
def Account.dispute (a : Account) (t : Transaction) : Account × Option Error :=
  match t.amount with
  | some _ => (a, some (Error.AmountPresentWhenAmbiguous t.id))
  | none =>
      match lookupTx a.transactions t.id with
      | none => (a, some (Error.TransactionNotFound t.id))
      | some tr =>
          if tr.disputed then
            (a, some (Error.InvalidTransactionState tr.id))
          else if tr.transaction_type ≠ TransactionType.Deposit then
            (a, some (Error.InvalidTransactionType tr.id))
          else
            let a1 := { a with
              transactions :=
                updateTx a.transactions t.id (fun tx => { tx with disputed := true }) }
            match tr.amount with
            | none => (a1, some (Error.AmountMissingWhenRequired tr.id))
            | some amount =>
                ({ a1 with
                    available := a1.available - amount
                    held := a1.held + amount }, none)

/-- `Account::resolve` in `src/account.rs`.  As in `dispute`, the stored
`disputed` flag is cleared before the amount is unwrapped. -/
def Account.resolve (a : Account) (t : Transaction) : Account × Option Error :=
  match t.amount with
  | some _ => (a, some (Error.AmountPresentWhenAmbiguous t.id))
  | none =>
      match lookupTx a.transactions t.id with
      | none => (a, some (Error.TransactionNotFound t.id))
      | some tr =>
          if !tr.disputed then
            (a, some (Error.InvalidTransactionState tr.id))
          else
            let a1 := { a with
              transactions :=
                updateTx a.transactions t.id (fun tx => { tx with disputed := false }) }
            match tr.amount with
            | none => (a1, some (Error.AmountMissingWhenRequired tr.id))
            | some amount =>
                ({ a1 with
                    available := a1.available + amount
                    held := a1.held - amount }, none)

/-- `Account::chargeback` in `src/account.rs`. -/
def Account.chargeback (a : Account) (t : Transaction) : Account × Option Error :=
  match t.amount with
  | some _ => (a, some (Error.AmountPresentWhenAmbiguous t.id))
  | none =>
      match lookupTx a.transactions t.id with
      | none => (a, some (Error.TransactionNotFound t.id))
      | some tr =>
          if !tr.disputed then
            (a, some (Error.InvalidTransactionState tr.id))
          else
            match tr.amount with
            | none => (a, some (Error.AmountMissingWhenRequired tr.id))
            | some amount =>
                ({ a with
                    held := a.held - amount
                    total := a.total - amount
                    locked := true }, none)

/-- `Account::apply_transaction` in `src/account.rs`. -/
def Account.apply_transaction (a : Account) (t : Transaction) :
    Account × Option Error :=
  if a.locked then
    (a, some (Error.AccountLocked a.id))
  else
    match t.transaction_type with
    | TransactionType.Deposit => a.deposit t
    | TransactionType.Withdrawal => a.withdraw t
    | TransactionType.Dispute => a.dispute t
    | TransactionType.Resolve => a.resolve t
    | TransactionType.Chargeback => a.chargeback t

/-- Apply a sequence of transactions in input order, keeping the post-state
of every call whether it succeeded or failed (the engine in
`src/engine.rs` reports an `Err` and continues with the next record). -/
def applyAll (a : Account) : List Transaction → Account
  | [] => a
  | t :: ts => applyAll (a.apply_transaction t).1 ts

/-- Rust `f64::round`: round half away from zero, embedded on `ℚ`. -/
def rustRound (x : ℚ) : ℤ :=
  if 0 ≤ x then ⌊x + 1 / 2⌋ else ⌈x - 1 / 2⌉

/-- `impl Serialize for MoneyAggregate` in `src/account.rs`:
`(self.0 * 1_0000.0).round() / 1_0000.0`. -/
def MoneyAggregate.serialize (v : Money) : Money :=
  (rustRound (v * 10000) : ℚ) / 10000

/-- An input deposit record, as deserialized from a
`deposit, client, tx, amount` row (`disputed` defaults to `false`). -/
def depositRec (client : AccountId) (tx : TransactionId) (amount : Money) :
    Transaction :=
  { id := tx, account_id := client, transaction_type := TransactionType.Deposit
    amount := some amount, disputed := false }

/-- An input withdrawal record. -/
def withdrawalRec (client : AccountId) (tx : TransactionId) (amount : Money) :
    Transaction :=
  { id := tx, account_id := client
    transaction_type := TransactionType.Withdrawal
    amount := some amount, disputed := false }

/-- An input dispute record (no amount). -/
def disputeRec (client : AccountId) (tx : TransactionId) : Transaction :=
  { id := tx, account_id := client, transaction_type := TransactionType.Dispute
    amount := none, disputed := false }

/-- An input resolve record (no amount). -/
def resolveRec (client : AccountId) (tx : TransactionId) : Transaction :=
  { id := tx, account_id := client, transaction_type := TransactionType.Resolve
    amount := none, disputed := false }

/-- An input chargeback record (no amount). -/
def chargebackRec (client : AccountId) (tx : TransactionId) : Transaction :=
  { id := tx, account_id := client
    transaction_type := TransactionType.Chargeback
    amount := none, disputed := false }

/-! ### IEEE-754 binary64 semantics

`Money` holds the values of the Rust `f64` fields exactly, and the
operations above perform the monetary arithmetic exactly — the arithmetic
an exact (fixed-point) representation would perform.  The definitions
below refine them with the rounding `f64` arithmetic actually applies:
every compound assignment (`+=`, `-=`) in `src/account.rs` stores the
binary64 value nearest the exact result, ties to even.  Overflow to
infinity, NaN and signed zero are not modelled (nothing below approaches
them). -/

/-- Round a rational to the nearest integer, ties to even. -/
def roundNearestEven (x : ℚ) : ℤ :=
  if x - ⌊x⌋ < 1 / 2 then ⌊x⌋
  else if 1 / 2 < x - ⌊x⌋ then ⌊x⌋ + 1
  else if ⌊x⌋ % 2 = 0 then ⌊x⌋ else ⌊x⌋ + 1

/-- Exponent of the binary64 unit in the last place at the magnitude of
`x`: significands carry 53 bits, and the exponent is clamped below at the
subnormal grid 2^(-1074). -/
def ulpExp (x : ℚ) : ℤ :=
  max (Int.log 2 |x| - 52) (-1074)

/-- Round an exact value to the nearest IEEE-754 binary64 value, ties to
even: the value a Rust `f64` addition or subtraction stores. -/
def fl (x : ℚ) : ℚ :=
  if x = 0 then 0
  else (roundNearestEven (x / 2 ^ ulpExp x) : ℚ) * 2 ^ ulpExp x

/-- `Account::deposit` under binary64 arithmetic: `available += amount`
and `total += amount` round their results. -/
def Account.deposit64 (a : Account) (t : Transaction) :
    Account × Option Error :=
  match t.amount with
  | some amount =>
      (({ a with
            available := fl (a.available + amount)
            total := fl (a.total + amount) }).add_transaction t, none)
  | none => (a, some (Error.AmountMissingWhenRequired t.id))

/-- `Account::withdraw` under binary64 arithmetic: the candidate balance
is the rounded difference. -/
def Account.withdraw64 (a : Account) (t : Transaction) :
    Account × Option Error :=
  match t.amount with
  | some amount =>
      if fl (a.available - amount) < 0 then
        (a, some (Error.InsufficientFunds a.id))
      else
        (({ a with
              available := fl (a.available - amount)
              total := fl (a.total - amount) }).add_transaction t, none)
  | none => (a, some (Error.AmountMissingWhenRequired t.id))

/-- `Account::dispute` under binary64 arithmetic. -/
def Account.dispute64 (a : Account) (t : Transaction) :
    Account × Option Error :=
  match t.amount with
  | some _ => (a, some (Error.AmountPresentWhenAmbiguous t.id))
  | none =>
      match lookupTx a.transactions t.id with
      | none => (a, some (Error.TransactionNotFound t.id))
      | some tr =>
          if tr.disputed then
            (a, some (Error.InvalidTransactionState tr.id))
          else if tr.transaction_type ≠ TransactionType.Deposit then
            (a, some (Error.InvalidTransactionType tr.id))
          else
            let a1 := { a with
              transactions :=
                updateTx a.transactions t.id (fun tx => { tx with disputed := true }) }
            match tr.amount with
            | none => (a1, some (Error.AmountMissingWhenRequired tr.id))
            | some amount =>
                ({ a1 with
                    available := fl (a1.available - amount)
                    held := fl (a1.held + amount) }, none)

/-- `Account::resolve` under binary64 arithmetic. -/
def Account.resolve64 (a : Account) (t : Transaction) :
    Account × Option Error :=
  match t.amount with
  | some _ => (a, some (Error.AmountPresentWhenAmbiguous t.id))
  | none =>
      match lookupTx a.transactions t.id with
      | none => (a, some (Error.TransactionNotFound t.id))
      | some tr =>
          if !tr.disputed then
            (a, some (Error.InvalidTransactionState tr.id))
          else
            let a1 := { a with
              transactions :=
                updateTx a.transactions t.id (fun tx => { tx with disputed := false }) }
            match tr.amount with
            | none => (a1, some (Error.AmountMissingWhenRequired tr.id))
            | some amount =>
                ({ a1 with
                    available := fl (a1.available + amount)
                    held := fl (a1.held - amount) }, none)

/-- `Account::chargeback` under binary64 arithmetic. -/
def Account.chargeback64 (a : Account) (t : Transaction) :
    Account × Option Error :=
  match t.amount with
  | some _ => (a, some (Error.AmountPresentWhenAmbiguous t.id))
  | none =>
      match lookupTx a.transactions t.id with
      | none => (a, some (Error.TransactionNotFound t.id))
      | some tr =>
          if !tr.disputed then
            (a, some (Error.InvalidTransactionState tr.id))
          else
            match tr.amount with
            | none => (a, some (Error.AmountMissingWhenRequired tr.id))
            | some amount =>
                ({ a with
                    held := fl (a.held - amount)
                    total := fl (a.total - amount)
                    locked := true }, none)

/-- `Account::apply_transaction` under binary64 arithmetic. -/
def Account.apply_transaction64 (a : Account) (t : Transaction) :
    Account × Option Error :=
  if a.locked then
    (a, some (Error.AccountLocked a.id))
  else
    match t.transaction_type with
    | TransactionType.Deposit => a.deposit64 t
    | TransactionType.Withdrawal => a.withdraw64 t
    | TransactionType.Dispute => a.dispute64 t
    | TransactionType.Resolve => a.resolve64 t
    | TransactionType.Chargeback => a.chargeback64 t

/-- Apply a sequence of transactions in input order under binary64
arithmetic. -/
def applyAll64 (a : Account) : List Transaction → Account
  | [] => a
  | t :: ts => applyAll64 (a.apply_transaction64 t).1 ts

/-! ### Helper lemmas about the transaction store -/

/-- Inserting a transaction makes it the one found under its id. -/
theorem lookupTx_insertTx (ts : List Transaction) (t : Transaction) :
    lookupTx (insertTx ts t) t.id = some t := by
  simp [lookupTx, insertTx, List.find?]

/-- Rewriting the entry under `i` with an id-preserving function commutes
with lookup. -/
theorem lookupTx_updateTx (ts : List Transaction) (i : TransactionId)
    (f : Transaction → Transaction) (hf : ∀ x, (f x).id = x.id) :
    lookupTx (updateTx ts i f) i = Option.map f (lookupTx ts i) := by
  induction ts with
  | nil => rfl
  | cons x ts ih =>
      simp only [updateTx, List.map_cons, lookupTx] at ih ⊢
      by_cases hx : x.id = i
      · rw [if_pos (by simpa using hx)]
        rw [List.find?_cons_of_pos _ (by simp [hf, hx]),
          List.find?_cons_of_pos _ (by simp [hx])]
        rfl
      · rw [if_neg (by simpa using hx)]
        rw [List.find?_cons_of_neg _ (by simp [hx]),
          List.find?_cons_of_neg _ (by simp [hx])]
        exact ih

/-- A transaction found under id `i` carries id `i`. -/
theorem lookupTx_id (ts : List Transaction) (i : TransactionId)
    (t : Transaction) (h : lookupTx ts i = some t) : t.id = i := by
  have := List.find?_some h
  simpa using this

/-- `deposit` preserves `total = available + held`. -/
theorem deposit_sum (a : Account) (t : Transaction)
    (h : a.total = a.available + a.held) :
    ((a.deposit t).1).total
      = ((a.deposit t).1).available + ((a.deposit t).1).held := by
  unfold Account.deposit Account.add_transaction
  cases ha : t.amount with
  | none => simpa using h
  | some m => simp [ha, h]; ring

/-- `withdraw` preserves `total = available + held`. -/
theorem withdraw_sum (a : Account) (t : Transaction)
    (h : a.total = a.available + a.held) :
    ((a.withdraw t).1).total
      = ((a.withdraw t).1).available + ((a.withdraw t).1).held := by
  unfold Account.withdraw Account.add_transaction
  cases ha : t.amount with
  | none => simpa using h
  | some m =>
      simp only [ha]
      by_cases hc : a.available - m < 0
      · simp [hc, h]
      · simp [hc, h]; ring

/-- `dispute` preserves `total = available + held`. -/
theorem dispute_sum (a : Account) (t : Transaction)
    (h : a.total = a.available + a.held) :
    ((a.dispute t).1).total
      = ((a.dispute t).1).available + ((a.dispute t).1).held := by
  unfold Account.dispute
  cases ha : t.amount with
  | some m => simpa using h
  | none =>
      cases hlk : lookupTx a.transactions t.id with
      | none => simpa using h
      | some tr =>
          simp only [ha, hlk]
          by_cases hd : tr.disputed
          · simp [hd, h]
          · by_cases hk : tr.transaction_type = TransactionType.Deposit
            · cases hm : tr.amount with
              | none => simp [hd, hk, hm, h]
              | some m => simp [hd, hk, hm, h, add_add_sub_cancel]
            · simp [hd, hk, h]

/-- `resolve` preserves `total = available + held`. -/
theorem resolve_sum (a : Account) (t : Transaction)
    (h : a.total = a.available + a.held) :
    ((a.resolve t).1).total
      = ((a.resolve t).1).available + ((a.resolve t).1).held := by
  unfold Account.resolve
  cases ha : t.amount with
  | some m => simpa using h
  | none =>
      cases hlk : lookupTx a.transactions t.id with
      | none => simpa using h
      | some tr =>
          simp only [ha, hlk]
          by_cases hd : tr.disputed
          · cases hm : tr.amount with
            | none => simp [hd, hm, h]
            | some m => simp [hd, hm, h, add_add_sub_cancel]
          · simp [hd, h]

/-- `chargeback` preserves `total = available + held`. -/
theorem chargeback_sum (a : Account) (t : Transaction)
    (h : a.total = a.available + a.held) :
    ((a.chargeback t).1).total
      = ((a.chargeback t).1).available + ((a.chargeback t).1).held := by
  unfold Account.chargeback
  cases ha : t.amount with
  | some m => simpa using h
  | none =>
      cases hlk : lookupTx a.transactions t.id with
      | none => simpa using h
      | some tr =>
          simp only [ha, hlk]
          by_cases hd : tr.disputed
          · cases hm : tr.amount with
            | none => simp [hd, hm, h]
            | some m => simp [hd, hm, h]; ring
          · simp [hd, h]

/-- `apply_transaction` preserves `total = available + held` (step case of
the reachability invariant). -/
theorem apply_transaction_sum (a : Account) (t : Transaction)
    (h : a.total = a.available + a.held) :
    ((a.apply_transaction t).1).total
      = ((a.apply_transaction t).1).available + ((a.apply_transaction t).1).held := by
  unfold Account.apply_transaction
  by_cases hl : a.locked
  · simpa [hl] using h
  · cases hk : t.transaction_type with
    | Deposit => simpa [hl, hk] using deposit_sum a t h
    | Withdrawal => simpa [hl, hk] using withdraw_sum a t h
    | Dispute => simpa [hl, hk] using dispute_sum a t h
    | Resolve => simpa [hl, hk] using resolve_sum a t h
    | Chargeback => simpa [hl, hk] using chargeback_sum a t h

/-! ### Claim theorems -/

/-- C1: for every account state reachable from the empty account by any
sequence of `apply_transaction` calls, `total = available + held` holds
exactly in the monetary representation, before any output rounding. -/
theorem reachable_total_eq_available_add_held (id : AccountId)
    (ts : List Transaction) :
    (applyAll (Account.new id) ts).total
      = (applyAll (Account.new id) ts).available
        + (applyAll (Account.new id) ts).held := by
  have aux : ∀ (l : List Transaction) (a : Account),
      a.total = a.available + a.held →
      (applyAll a l).total = (applyAll a l).available + (applyAll a l).held := by
    intro l
    induction l with
    | nil => intro a h; simpa [applyAll] using h
    | cons t l ih =>
        intro a h
        simpa [applyAll] using ih _ (apply_transaction_sum a t h)
  exact aux ts (Account.new id) (by simp [Account.new])

/-- Every `deposit` error leaves the four balance fields unchanged. -/
theorem deposit_error_fields (a : Account) (t : Transaction) (e : Error)
    (h : (a.deposit t).2 = some e) :
    ((a.deposit t).1).available = a.available ∧
    ((a.deposit t).1).held = a.held ∧
    ((a.deposit t).1).total = a.total ∧
    ((a.deposit t).1).locked = a.locked := by
  cases ha : t.amount with
  | none => simp [Account.deposit, ha]
  | some m => simp [Account.deposit, ha] at h

/-- Every `withdraw` error leaves the four balance fields unchanged. -/
theorem withdraw_error_fields (a : Account) (t : Transaction) (e : Error)
    (h : (a.withdraw t).2 = some e) :
    ((a.withdraw t).1).available = a.available ∧
    ((a.withdraw t).1).held = a.held ∧
    ((a.withdraw t).1).total = a.total ∧
    ((a.withdraw t).1).locked = a.locked := by
  cases ha : t.amount with
  | none => simp [Account.withdraw, ha]
  | some m =>
      by_cases hc : a.available - m < 0
      · simp [Account.withdraw, ha, hc]
      · simp [Account.withdraw, ha, hc] at h

/-- Every `dispute` error leaves the four balance fields unchanged. -/
theorem dispute_error_fields (a : Account) (t : Transaction) (e : Error)
    (h : (a.dispute t).2 = some e) :
    ((a.dispute t).1).available = a.available ∧
    ((a.dispute t).1).held = a.held ∧
    ((a.dispute t).1).total = a.total ∧
    ((a.dispute t).1).locked = a.locked := by
  cases ha : t.amount with
  | some m => simp [Account.dispute, ha]
  | none =>
      cases hlk : lookupTx a.transactions t.id with
      | none => simp [Account.dispute, ha, hlk]
      | some tr =>
          by_cases hd : tr.disputed
          · simp [Account.dispute, ha, hlk, hd]
          · by_cases hk : tr.transaction_type = TransactionType.Deposit
            · cases hm : tr.amount with
              | none => simp [Account.dispute, ha, hlk, hd, hk, hm]
              | some m => simp [Account.dispute, ha, hlk, hd, hk, hm] at h
            · simp [Account.dispute, ha, hlk, hd, hk]

/-- Every `resolve` error leaves the four balance fields unchanged. -/
theorem resolve_error_fields (a : Account) (t : Transaction) (e : Error)
    (h : (a.resolve t).2 = some e) :
    ((a.resolve t).1).available = a.available ∧
    ((a.resolve t).1).held = a.held ∧
    ((a.resolve t).1).total = a.total ∧
    ((a.resolve t).1).locked = a.locked := by
  cases ha : t.amount with
  | some m => simp [Account.resolve, ha]
  | none =>
      cases hlk : lookupTx a.transactions t.id with
      | none => simp [Account.resolve, ha, hlk]
      | some tr =>
          by_cases hd : tr.disputed
          · cases hm : tr.amount with
            | none => simp [Account.resolve, ha, hlk, hd, hm]
            | some m => simp [Account.resolve, ha, hlk, hd, hm] at h
          · simp [Account.resolve, ha, hlk, hd]

/-- Every `chargeback` error leaves the four balance fields unchanged. -/
theorem chargeback_error_fields (a : Account) (t : Transaction) (e : Error)
    (h : (a.chargeback t).2 = some e) :
    ((a.chargeback t).1).available = a.available ∧
    ((a.chargeback t).1).held = a.held ∧
    ((a.chargeback t).1).total = a.total ∧
    ((a.chargeback t).1).locked = a.locked := by
  cases ha : t.amount with
  | some m => simp [Account.chargeback, ha]
  | none =>
      cases hlk : lookupTx a.transactions t.id with
      | none => simp [Account.chargeback, ha, hlk]
      | some tr =>
          by_cases hd : tr.disputed
          · cases hm : tr.amount with
            | none => simp [Account.chargeback, ha, hlk, hd, hm]
            | some m => simp [Account.chargeback, ha, hlk, hd, hm] at h
          · simp [Account.chargeback, ha, hlk, hd]

/-- C2: whenever `apply_transaction` returns an error (any of the seven
variants), the account's `available`, `held`, `total` and `locked` fields
are exactly the same after the call as before it. -/
theorem apply_transaction_error_preserves_balances (a : Account)
    (t : Transaction) (e : Error)
    (h : (a.apply_transaction t).2 = some e) :
    ((a.apply_transaction t).1).available = a.available ∧
    ((a.apply_transaction t).1).held = a.held ∧
    ((a.apply_transaction t).1).total = a.total ∧
    ((a.apply_transaction t).1).locked = a.locked := by
  by_cases hl : a.locked
  · simp [Account.apply_transaction, hl]
  · cases hk : t.transaction_type with
    | Deposit =>
        have h2 : (a.deposit t).2 = some e := by
          simpa [Account.apply_transaction, hl, hk] using h
        simpa [Account.apply_transaction, hl, hk] using
          deposit_error_fields a t e h2
    | Withdrawal =>
        have h2 : (a.withdraw t).2 = some e := by
          simpa [Account.apply_transaction, hl, hk] using h
        simpa [Account.apply_transaction, hl, hk] using
          withdraw_error_fields a t e h2
    | Dispute =>
        have h2 : (a.dispute t).2 = some e := by
          simpa [Account.apply_transaction, hl, hk] using h
        simpa [Account.apply_transaction, hl, hk] using
          dispute_error_fields a t e h2
    | Resolve =>
        have h2 : (a.resolve t).2 = some e := by
          simpa [Account.apply_transaction, hl, hk] using h
        simpa [Account.apply_transaction, hl, hk] using
          resolve_error_fields a t e h2
    | Chargeback =>
        have h2 : (a.chargeback t).2 = some e := by
          simpa [Account.apply_transaction, hl, hk] using h
        simpa [Account.apply_transaction, hl, hk] using
          chargeback_error_fields a t e h2

/-- Witness for C2 at a concrete input: a dispute of an unknown id on a
fresh account fails with `TransactionNotFound` and leaves the balance
fields unchanged. -/
theorem apply_transaction_error_preserves_balances_witness :
    ((Account.new 1).apply_transaction (disputeRec 1 7)).2
      = some (Error.TransactionNotFound 7) ∧
    (((Account.new 1).apply_transaction (disputeRec 1 7)).1).available
      = (Account.new 1).available ∧
    (((Account.new 1).apply_transaction (disputeRec 1 7)).1).held
      = (Account.new 1).held ∧
    (((Account.new 1).apply_transaction (disputeRec 1 7)).1).total
      = (Account.new 1).total ∧
    (((Account.new 1).apply_transaction (disputeRec 1 7)).1).locked
      = (Account.new 1).locked :=
  have hp : ((Account.new 1).apply_transaction (disputeRec 1 7)).2
      = some (Error.TransactionNotFound 7) := by
    simp [Account.apply_transaction, Account.dispute, Account.new,
      disputeRec, lookupTx]
  ⟨hp, apply_transaction_error_preserves_balances (Account.new 1)
    (disputeRec 1 7) (Error.TransactionNotFound 7) hp⟩

/-- C5: once an account is locked, every `apply_transaction` call fails
with `AccountLocked` and leaves the account — balances, `locked` flag and
stored transaction history — exactly unchanged. -/
theorem locked_apply_transaction_rejected (a : Account) (t : Transaction)
    (h : a.locked = true) :
    a.apply_transaction t = (a, some (Error.AccountLocked a.id)) := by
  simp [Account.apply_transaction, h]

/-- A concrete locked account used to witness C5. -/
def accLocked : Account :=
  { id := 1
    available := 2
    held := 0
    total := 2
    locked := true
    transactions := [] }

/-- Witness for C5 at a concrete input: a deposit on a locked account is
rejected with `AccountLocked` and the account is returned unchanged. -/
theorem locked_apply_transaction_rejected_witness :
    accLocked.locked = true ∧
    accLocked.apply_transaction (depositRec 1 9 5)
      = (accLocked, some (Error.AccountLocked 1)) :=
  ⟨rfl, locked_apply_transaction_rejected accLocked (depositRec 1 9 5) rfl⟩

/-- C3: `dispute` checks, in order: amount present (`AmountPresentWhenAmbiguous`,
before any lookup), id not stored (`TransactionNotFound`), already disputed
(`InvalidTransactionState`), kind not `Deposit` (`InvalidTransactionType`);
otherwise it moves the stored amount from `available` to `held`, marks the
stored transaction disputed, and leaves `total` unchanged. -/
theorem dispute_case_analysis (a : Account) (t : Transaction) :
    (∀ m : Money, t.amount = some m →
        a.dispute t = (a, some (Error.AmountPresentWhenAmbiguous t.id))) ∧
    (t.amount = none → lookupTx a.transactions t.id = none →
        a.dispute t = (a, some (Error.TransactionNotFound t.id))) ∧
    (∀ st : Transaction, t.amount = none →
        lookupTx a.transactions t.id = some st → st.disputed = true →
        a.dispute t = (a, some (Error.InvalidTransactionState st.id))) ∧
    (∀ st : Transaction, t.amount = none →
        lookupTx a.transactions t.id = some st → st.disputed = false →
        st.transaction_type ≠ TransactionType.Deposit →
        a.dispute t = (a, some (Error.InvalidTransactionType st.id))) ∧
    (∀ (st : Transaction) (m : Money), t.amount = none →
        lookupTx a.transactions t.id = some st → st.disputed = false →
        st.transaction_type = TransactionType.Deposit → st.amount = some m →
        (a.dispute t).2 = none ∧
        ((a.dispute t).1).available = a.available - m ∧
        ((a.dispute t).1).held = a.held + m ∧
        ((a.dispute t).1).total = a.total ∧
        ((a.dispute t).1).locked = a.locked ∧
        lookupTx ((a.dispute t).1).transactions t.id
          = some { st with disputed := true }) := by
  refine ⟨?_, ?_, ?_, ?_, ?_⟩
  · intro m ha
    simp [Account.dispute, ha]
  · intro ha hlk
    simp [Account.dispute, ha, hlk]
  · intro st ha hlk hd
    simp [Account.dispute, ha, hlk, hd]
  · intro st ha hlk hd hk
    simp [Account.dispute, ha, hlk, hd, hk]
  · intro st m ha hlk hd hk hm
    have hlk2 : lookupTx (updateTx a.transactions t.id
          (fun tx => { tx with disputed := true })) t.id
        = some { st with disputed := true } := by
      rw [lookupTx_updateTx a.transactions t.id
        (fun tx => { tx with disputed := true }) (fun x => rfl), hlk]
      rfl
    simp [Account.dispute, ha, hlk, hd, hk, hm, hlk2]

/-- A fresh account holding one 5-unit deposit under transaction id 1,
used to witness C3. -/
def accDep : Account :=
  { id := 1
    available := 5
    held := 0
    total := 5
    locked := false
    transactions := [depositRec 1 1 5] }

/-- Witness for C3 at a concrete input: on `accDep`, an amountless dispute
of id 1 succeeds and moves the 5 units from available to held. -/
theorem dispute_case_analysis_witness :
    lookupTx accDep.transactions (disputeRec 1 1).id
      = some (depositRec 1 1 5) ∧
    (accDep.dispute (disputeRec 1 1)).2 = none ∧
    ((accDep.dispute (disputeRec 1 1)).1).available = accDep.available - 5 ∧
    ((accDep.dispute (disputeRec 1 1)).1).held = accDep.held + 5 ∧
    ((accDep.dispute (disputeRec 1 1)).1).total = accDep.total ∧
    ((accDep.dispute (disputeRec 1 1)).1).locked = accDep.locked ∧
    lookupTx ((accDep.dispute (disputeRec 1 1)).1).transactions
        (disputeRec 1 1).id
      = some { depositRec 1 1 5 with disputed := true } :=
  have hlk : lookupTx accDep.transactions (disputeRec 1 1).id
      = some (depositRec 1 1 5) := rfl
  have h := (dispute_case_analysis accDep (disputeRec 1 1)).2.2.2.2
    (depositRec 1 1 5) 5 rfl hlk rfl rfl rfl
  ⟨hlk, h.1, h.2.1, h.2.2.1, h.2.2.2.1, h.2.2.2.2.1, h.2.2.2.2.2⟩

/-- C4: for a withdrawal record with amount present, if the candidate
balance `available - amount` is negative the call fails with
`InsufficientFunds` and the account is exactly unchanged; otherwise
`available` becomes the candidate, `total` decreases by the amount, `held`
is unchanged, and the record is committed to the stored transactions. -/
theorem withdraw_case_analysis (a : Account) (t : Transaction) (m : Money)
    (hm : t.amount = some m) :
    (a.available - m < 0 →
        a.withdraw t = (a, some (Error.InsufficientFunds a.id))) ∧
    (¬ a.available - m < 0 →
        (a.withdraw t).2 = none ∧
        ((a.withdraw t).1).available = a.available - m ∧
        ((a.withdraw t).1).held = a.held ∧
        ((a.withdraw t).1).total = a.total - m ∧
        ((a.withdraw t).1).locked = a.locked ∧
        lookupTx ((a.withdraw t).1).transactions t.id = some t) := by
  constructor
  · intro hc
    simp [Account.withdraw, hm, hc]
  · intro hc
    simp [Account.withdraw, Account.add_transaction, hm, hc,
      lookupTx_insertTx]

/-- Witness for C4 at a concrete input: on `accDep` (available 5), a
2-unit withdrawal succeeds and a 9-unit withdrawal fails with
`InsufficientFunds`, each as C4 states. -/
theorem withdraw_case_analysis_witness :
    (withdrawalRec 1 2 2).amount = some 2 ∧
    ¬ accDep.available - 2 < 0 ∧
    (accDep.withdraw (withdrawalRec 1 2 2)).2 = none ∧
    ((accDep.withdraw (withdrawalRec 1 2 2)).1).available = accDep.available - 2 ∧
    ((accDep.withdraw (withdrawalRec 1 2 2)).1).total = accDep.total - 2 ∧
    accDep.available - 9 < 0 ∧
    accDep.withdraw (withdrawalRec 1 9 9)
      = (accDep, some (Error.InsufficientFunds accDep.id)) :=
  have hok : ¬ accDep.available - 2 < 0 := by norm_num [accDep]
  have hbad : accDep.available - 9 < 0 := by norm_num [accDep]
  have h2 := (withdraw_case_analysis accDep (withdrawalRec 1 2 2) 2 rfl).2 hok
  have h9 := (withdraw_case_analysis accDep (withdrawalRec 1 9 9) 9 rfl).1 hbad
  ⟨rfl, hok, h2.1, h2.2.1, h2.2.2.2.1, hbad, h9⟩

/-- Counterexample to C6: deposit 1, withdraw the same 1, then dispute the
deposit.  Every step is accepted by the code, and the final available
balance is -1 < 0: a dispute of a previously withdrawn-against deposit
drives `available` below zero. -/
theorem dispute_after_withdrawal_negative_available :
    (applyAll (Account.new 1)
        [depositRec 1 1 1, withdrawalRec 1 2 1, disputeRec 1 1]).available
      = -1 ∧
    (applyAll (Account.new 1)
        [depositRec 1 1 1, withdrawalRec 1 2 1, disputeRec 1 1]).available
      < 0 := by
  norm_num [applyAll, Account.new, Account.apply_transaction,
    Account.deposit, Account.withdraw, Account.dispute,
    Account.add_transaction, insertTx, lookupTx, updateTx, depositRec,
    withdrawalRec, disputeRec, List.find?, List.filter]

/-- C6 amended: `available` stays nonnegative after every successfully
applied withdrawal (the guard rejects any withdrawal that would make it
negative), but a dispute may drive it negative. -/
theorem withdrawal_ok_available_nonneg (a : Account) (t : Transaction)
    (hk : t.transaction_type = TransactionType.Withdrawal)
    (h : (a.apply_transaction t).2 = none) :
    0 ≤ ((a.apply_transaction t).1).available := by
  by_cases hl : a.locked
  · simp [Account.apply_transaction, hl] at h
  · cases ha : t.amount with
    | none =>
        simp [Account.apply_transaction, Account.withdraw, hl, hk, ha] at h
    | some m =>
        by_cases hc : a.available - m < 0
        · simp [Account.apply_transaction, Account.withdraw, hl, hk, ha,
            hc] at h
        · simp [Account.apply_transaction, Account.withdraw,
            Account.add_transaction, hl, hk, ha, hc]
          linarith [not_lt.mp hc]

/-- Witness for the amended C6 at a concrete input: a successful 2-unit
withdrawal from `accDep` (available 5) leaves available nonnegative. -/
theorem withdrawal_ok_available_nonneg_witness :
    (withdrawalRec 1 2 2).transaction_type = TransactionType.Withdrawal ∧
    (accDep.apply_transaction (withdrawalRec 1 2 2)).2 = none ∧
    0 ≤ ((accDep.apply_transaction (withdrawalRec 1 2 2)).1).available :=
  have hs : (accDep.apply_transaction (withdrawalRec 1 2 2)).2 = none := by
    norm_num [Account.apply_transaction, Account.withdraw,
      Account.add_transaction, accDep, withdrawalRec]
  ⟨rfl, hs,
    withdrawal_ok_available_nonneg accDep (withdrawalRec 1 2 2) rfl hs⟩

/-- Scenario D of the spec: two deposits, a dispute of the first, then a
chargeback of the first. -/
def scenarioD : List Transaction :=
  [depositRec 1 1 1, depositRec 1 2 2, disputeRec 1 1, chargebackRec 1 1]

/-- Scenario D after the first deposit. -/
def accD1 : Account :=
  { id := 1, available := 1, held := 0, total := 1, locked := false
    transactions := [depositRec 1 1 1] }

/-- Scenario D after the second deposit. -/
def accD2 : Account :=
  { id := 1, available := 3, held := 0, total := 3, locked := false
    transactions := [depositRec 1 2 2, depositRec 1 1 1] }

/-- Scenario D after the dispute of transaction 1. -/
def accD3 : Account :=
  { id := 1, available := 2, held := 1, total := 3, locked := false
    transactions :=
      [depositRec 1 2 2, { depositRec 1 1 1 with disputed := true }] }

/-- Scenario D after the chargeback of transaction 1. -/
def accD4 : Account :=
  { id := 1, available := 2, held := 0, total := 2, locked := true
    transactions :=
      [depositRec 1 2 2, { depositRec 1 1 1 with disputed := true }] }

/-- Running scenario D from the empty account ends in `accD4`. -/
theorem applyAll_scenarioD : applyAll (Account.new 1) scenarioD = accD4 := by
  have e1 : (Account.new 1).apply_transaction (depositRec 1 1 1)
      = (accD1, none) := by
    norm_num [Account.apply_transaction, Account.deposit,
      Account.add_transaction, Account.new, depositRec, insertTx, accD1]
  have e2 : accD1.apply_transaction (depositRec 1 2 2) = (accD2, none) := by
    norm_num [Account.apply_transaction, Account.deposit,
      Account.add_transaction, depositRec, insertTx, accD1, accD2,
      List.filter_cons]
  have e3 : accD2.apply_transaction (disputeRec 1 1) = (accD3, none) := by
    norm_num [Account.apply_transaction, Account.dispute, depositRec,
      disputeRec, lookupTx, updateTx, List.find?_cons, accD2, accD3]
  have e4 : accD3.apply_transaction (chargebackRec 1 1) = (accD4, none) := by
    norm_num [Account.apply_transaction, Account.chargeback, depositRec,
      chargebackRec, lookupTx, List.find?_cons, accD3, accD4]
  simp [scenarioD, applyAll, e1, e2, e3, e4]

/-- C7: an amountless chargeback of a stored, currently disputed
transaction subtracts the stored amount from both `held` and `total`,
leaves `available` unchanged and locks the account; in particular scenario
D ends with available 2, held 0, total 2, locked, and a subsequent 2-unit
withdrawal is rejected with `AccountLocked`, leaving the account
unchanged. -/
theorem chargeback_case_and_scenarioD (a : Account) (t st : Transaction)
    (m : Money)
    (hta : t.amount = none)
    (hlk : lookupTx a.transactions t.id = some st)
    (hd : st.disputed = true)
    (hm : st.amount = some m) :
    a.chargeback t
      = ({ a with held := a.held - m, total := a.total - m, locked := true },
          none) ∧
    (applyAll (Account.new 1) scenarioD).available = 2 ∧
    (applyAll (Account.new 1) scenarioD).held = 0 ∧
    (applyAll (Account.new 1) scenarioD).total = 2 ∧
    (applyAll (Account.new 1) scenarioD).locked = true ∧
    (applyAll (Account.new 1) scenarioD).apply_transaction
        (withdrawalRec 1 3 2)
      = (applyAll (Account.new 1) scenarioD,
          some (Error.AccountLocked 1)) := by
  rw [applyAll_scenarioD]
  refine ⟨?_, rfl, rfl, rfl, rfl, ?_⟩
  · simp [Account.chargeback, hta, hlk, hd, hm]
  · simp [Account.apply_transaction, accD4]

/-- A concrete account with a currently disputed 1-unit deposit, used to
witness C7. -/
def accDisp : Account :=
  { id := 1
    available := 2
    held := 1
    total := 3
    locked := false
    transactions :=
      [{ depositRec 1 1 1 with disputed := true }, depositRec 1 2 2] }

/-- Witness for C7 at a concrete input: charging back the disputed 1-unit
deposit of `accDisp` removes it from held and total and locks the
account. -/
theorem chargeback_case_and_scenarioD_witness :
    (chargebackRec 1 1).amount = none ∧
    lookupTx accDisp.transactions (chargebackRec 1 1).id
      = some { depositRec 1 1 1 with disputed := true } ∧
    accDisp.chargeback (chargebackRec 1 1)
      = ({ accDisp with
            held := accDisp.held - 1
            total := accDisp.total - 1
            locked := true }, none) :=
  have hlk : lookupTx accDisp.transactions (chargebackRec 1 1).id
      = some { depositRec 1 1 1 with disputed := true } := rfl
  ⟨rfl, hlk,
    (chargeback_case_and_scenarioD accDisp (chargebackRec 1 1)
      { depositRec 1 1 1 with disputed := true } 1 rfl hlk rfl rfl).1⟩

/-- C8: on an unlocked account storing an undisputed deposit under id `t`,
a successful dispute of `t` followed by a successful resolve of `t`
returns `available` and `held` exactly to their original values, with
`total` unchanged throughout. -/
theorem dispute_resolve_roundtrip (a : Account) (tdis tres st : Transaction)
    (m : Money)
    (hl : a.locked = false)
    (hdk : tdis.transaction_type = TransactionType.Dispute)
    (hda : tdis.amount = none)
    (hrk : tres.transaction_type = TransactionType.Resolve)
    (hra : tres.amount = none)
    (hid : tres.id = tdis.id)
    (hlk : lookupTx a.transactions tdis.id = some st)
    (hd : st.disputed = false)
    (hk : st.transaction_type = TransactionType.Deposit)
    (hm : st.amount = some m) :
    (a.apply_transaction tdis).2 = none ∧
    ((a.apply_transaction tdis).1).total = a.total ∧
    (((a.apply_transaction tdis).1).apply_transaction tres).2 = none ∧
    ((((a.apply_transaction tdis).1).apply_transaction tres).1).available
      = a.available ∧
    ((((a.apply_transaction tdis).1).apply_transaction tres).1).held
      = a.held ∧
    ((((a.apply_transaction tdis).1).apply_transaction tres).1).total
      = a.total := by
  have hlk1 : lookupTx (updateTx a.transactions tdis.id
        (fun tx => { tx with disputed := true })) tres.id
      = some { st with disputed := true } := by
    rw [hid, lookupTx_updateTx a.transactions tdis.id
      (fun tx => { tx with disputed := true }) (fun x => rfl), hlk]
    rfl
  have e1 : a.apply_transaction tdis
      = ({ a with
            available := a.available - m
            held := a.held + m
            transactions := updateTx a.transactions tdis.id
              (fun tx => { tx with disputed := true }) }, none) := by
    simp [Account.apply_transaction, Account.dispute, hl, hdk, hda, hlk,
      hd, hk, hm]
  rw [e1]
  simp [Account.apply_transaction, Account.resolve, hl, hrk, hra, hlk1, hm]

/-- Witness for C8 at a concrete input: disputing then resolving the
5-unit deposit of `accDep` restores available, held and total. -/
theorem dispute_resolve_roundtrip_witness :
    accDep.locked = false ∧
    lookupTx accDep.transactions (disputeRec 1 1).id
      = some (depositRec 1 1 5) ∧
    ((((accDep.apply_transaction (disputeRec 1 1)).1).apply_transaction
        (resolveRec 1 1)).1).available = accDep.available ∧
    ((((accDep.apply_transaction (disputeRec 1 1)).1).apply_transaction
        (resolveRec 1 1)).1).held = accDep.held ∧
    ((((accDep.apply_transaction (disputeRec 1 1)).1).apply_transaction
        (resolveRec 1 1)).1).total = accDep.total :=
  have h := dispute_resolve_roundtrip accDep (disputeRec 1 1)
    (resolveRec 1 1) (depositRec 1 1 5) 5 rfl rfl rfl rfl rfl rfl rfl rfl
    rfl rfl
  ⟨rfl, rfl, h.2.2.2.1, h.2.2.2.2.1, h.2.2.2.2.2⟩

/-- `rustRound` lands within half a unit of its argument (it rounds to a
nearest integer, half away from zero). -/
theorem rustRound_dist (x : ℚ) : |(rustRound x : ℚ) - x| ≤ 1 / 2 := by
  unfold rustRound
  by_cases h : 0 ≤ x
  · rw [if_pos h, abs_le]
    constructor
    · have h2 := Int.lt_floor_add_one (x + 1 / 2)
      linarith
    · have h2 := Int.floor_le (x + 1 / 2)
      linarith
  · rw [if_neg h, abs_le]
    constructor
    · have h2 := Int.le_ceil (x - 1 / 2)
      linarith
    · have h2 := Int.ceil_lt_add_one (x - 1 / 2)
      linarith

/-- C9: the serialized output field is `v * 10000` rounded to a nearest
integer (within half a least unit — rounding, not truncation), divided
back by 10000; in particular 1.10001 serializes to 1.1, 0.0001 to 0.0001,
and 0.00006 rounds up to 0.0001 where truncation would give 0. -/
theorem serialize_rounds_to_nearest (v : Money) :
    |MoneyAggregate.serialize v - v| ≤ 1 / 20000 ∧
    MoneyAggregate.serialize (110001 / 100000) = 11 / 10 ∧
    MoneyAggregate.serialize (1 / 10000) = 1 / 10000 ∧
    MoneyAggregate.serialize (6 / 100000) = 1 / 10000 := by
  refine ⟨?_, ?_, ?_, ?_⟩
  · have h := rustRound_dist (v * 10000)
    have key : MoneyAggregate.serialize v - v
        = ((rustRound (v * 10000) : ℚ) - v * 10000) / 10000 := by
      unfold MoneyAggregate.serialize
      ring
    rw [key, abs_div]
    rw [show |(10000 : ℚ)| = 10000 by norm_num]
    rw [div_le_div_iff₀ (by norm_num) (by norm_num)]
    nlinarith [h]
  · have hfl : ⌊(110001 : ℚ) / 100000 * 10000 + 1 / 2⌋ = 11000 := by
      rw [Int.floor_eq_iff]
      norm_num
    unfold MoneyAggregate.serialize rustRound
    rw [if_pos (by norm_num), hfl]
    norm_num
  · have hfl : ⌊(1 : ℚ) / 10000 * 10000 + 1 / 2⌋ = 1 := by
      rw [Int.floor_eq_iff]
      norm_num
    unfold MoneyAggregate.serialize rustRound
    rw [if_pos (by norm_num), hfl]
    norm_num
  · have hfl : ⌊(6 : ℚ) / 100000 * 10000 + 1 / 2⌋ = 1 := by
      rw [Int.floor_eq_iff]
      norm_num
    unfold MoneyAggregate.serialize rustRound
    rw [if_pos (by norm_num), hfl]
    norm_num

/-- C10: on an account that already stores a transaction under id `t`, a
later successful deposit or withdrawal carrying the same id still adjusts
the balances and silently replaces the stored transaction, so a later
dispute of `t` will find the newer record (with its `disputed` flag as on
the input record, i.e. false). -/
theorem same_id_replaces_stored (a : Account) (told tnew : Transaction)
    (m : Money)
    (_hold : lookupTx a.transactions tnew.id = some told)
    (hm : tnew.amount = some m)
    (_hdis : tnew.disputed = false)
    (hl : a.locked = false) :
    (tnew.transaction_type = TransactionType.Deposit →
        (a.apply_transaction tnew).2 = none ∧
        ((a.apply_transaction tnew).1).available = a.available + m ∧
        ((a.apply_transaction tnew).1).total = a.total + m ∧
        lookupTx ((a.apply_transaction tnew).1).transactions tnew.id
          = some tnew) ∧
    (tnew.transaction_type = TransactionType.Withdrawal →
      ¬ a.available - m < 0 →
        (a.apply_transaction tnew).2 = none ∧
        ((a.apply_transaction tnew).1).available = a.available - m ∧
        ((a.apply_transaction tnew).1).total = a.total - m ∧
        lookupTx ((a.apply_transaction tnew).1).transactions tnew.id
          = some tnew) := by
  constructor
  · intro hk
    simp [Account.apply_transaction, Account.deposit,
      Account.add_transaction, hl, hk, hm, lookupTx_insertTx]
  · intro hk hc
    simp [Account.apply_transaction, Account.withdraw,
      Account.add_transaction, hl, hk, hm, hc, lookupTx_insertTx]

/-- Witness for C10 at a concrete input: `accDep` stores the 5-unit
deposit under id 1; a later 7-unit deposit with the same id 1 is applied
to the balances and replaces the stored record, so a dispute of id 1 now
sees the 7-unit deposit. -/
theorem same_id_replaces_stored_witness :
    lookupTx accDep.transactions (depositRec 1 1 7).id
      = some (depositRec 1 1 5) ∧
    (accDep.apply_transaction (depositRec 1 1 7)).2 = none ∧
    ((accDep.apply_transaction (depositRec 1 1 7)).1).available
      = accDep.available + 7 ∧
    ((accDep.apply_transaction (depositRec 1 1 7)).1).total
      = accDep.total + 7 ∧
    lookupTx ((accDep.apply_transaction (depositRec 1 1 7)).1).transactions
        (depositRec 1 1 7).id
      = some (depositRec 1 1 7) :=
  have h := (same_id_replaces_stored accDep (depositRec 1 1 5)
    (depositRec 1 1 7) 7 rfl rfl rfl rfl).1 rfl
  ⟨rfl, h.1, h.2.1, h.2.2.1, h.2.2.2⟩

/-! ### Binary64 rounding at the 2^53 boundary

At magnitude 2^53 the binary64 grid spacing is 2, so adding or
subtracting 1 rounds: fl(2^53 + 1) = 2^53 (tie to even).  The lemmas
below evaluate `fl` at the values used by the traces that separate the
exact-arithmetic invariants from the program's `f64` behaviour. -/

/-- `roundNearestEven` fixes integers. -/
theorem roundNearestEven_intCast (n : ℤ) : roundNearestEven (n : ℚ) = n := by
  norm_num [roundNearestEven, Int.floor_intCast]

/-- A halfway value above an even integer rounds down to it. -/
theorem roundNearestEven_add_half_even (n : ℤ) (hn : n % 2 = 0) :
    roundNearestEven ((n : ℚ) + 1 / 2) = n := by
  have hf : ⌊(n : ℚ) + 1 / 2⌋ = n := by
    rw [Int.floor_eq_iff]
    constructor
    · linarith
    · linarith
  norm_num [roundNearestEven, hf, hn]

/-- `Int.log 2` is determined by a power-of-two bracketing. -/
theorem log2_eq_of_bracket (x : ℚ) (k : ℤ) (hx : 0 < x)
    (hlo : (2 : ℚ) ^ k ≤ x) (hhi : x < (2 : ℚ) ^ (k + 1)) :
    Int.log 2 x = k := by
  have h1 : k ≤ Int.log 2 x := by
    rw [← Int.zpow_le_iff_le_log (by norm_num) hx]
    exact_mod_cast hlo
  have h2 : Int.log 2 x < k + 1 := by
    rw [← Int.lt_zpow_iff_log_lt (by norm_num) hx]
    exact_mod_cast hhi
  omega

/-- Evaluate `fl` on a positive normal-range value from its binade and
the rounding of its scaled significand. -/
theorem fl_eval (x : ℚ) (k m : ℤ) (hx : 0 < x) (hk : -1022 ≤ k)
    (hlo : (2 : ℚ) ^ k ≤ x) (hhi : x < (2 : ℚ) ^ (k + 1))
    (hm : roundNearestEven (x / 2 ^ (k - 52)) = m) :
    fl x = (m : ℚ) * 2 ^ (k - 52) := by
  have habs : |x| = x := abs_of_pos hx
  have hu : ulpExp x = k - 52 := by
    unfold ulpExp
    rw [habs, log2_eq_of_bracket x k hx hlo hhi]
    exact max_eq_left (by omega)
  unfold fl
  rw [if_neg (ne_of_gt hx), hu, hm]

/-- fl fixes 0. -/
theorem fl_zero : fl 0 = 0 := by
  unfold fl
  simp

/-- fl fixes 1. -/
theorem fl_one : fl 1 = 1 := by
  have hr : roundNearestEven ((1 : ℚ) / 2 ^ ((0 : ℤ) - 52)) = 2 ^ 52 := by
    rw [show (1 : ℚ) / 2 ^ ((0 : ℤ) - 52) = ((2 ^ 52 : ℤ) : ℚ) by norm_num,
      roundNearestEven_intCast]
  have h := fl_eval 1 0 (2 ^ 52) one_pos (by norm_num) (by norm_num)
    (by norm_num) hr
  rw [h]
  norm_num

/-- 2^53 + 1 sits halfway between the adjacent binary64 values 2^53 and
2^53 + 2 and rounds to the even one: fl(2^53 + 1) = 2^53. -/
theorem fl_pow53_add_one : fl 9007199254740993 = 9007199254740992 := by
  have hr : roundNearestEven ((9007199254740993 : ℚ) / 2 ^ ((53 : ℤ) - 52))
      = 4503599627370496 := by
    rw [show (9007199254740993 : ℚ) / 2 ^ ((53 : ℤ) - 52)
        = ((4503599627370496 : ℤ) : ℚ) + 1 / 2 by norm_num]
    exact roundNearestEven_add_half_even 4503599627370496 (by norm_num)
  have h := fl_eval 9007199254740993 53 4503599627370496 (by norm_num)
    (by norm_num) (by norm_num) (by norm_num) hr
  rw [h]
  norm_num

/-- 2^53 + 2 is representable, so fl fixes it. -/
theorem fl_pow53_add_two : fl 9007199254740994 = 9007199254740994 := by
  have hr : roundNearestEven ((9007199254740994 : ℚ) / 2 ^ ((53 : ℤ) - 52))
      = 4503599627370497 := by
    rw [show (9007199254740994 : ℚ) / 2 ^ ((53 : ℤ) - 52)
        = ((4503599627370497 : ℤ) : ℚ) by norm_num]
    exact roundNearestEven_intCast 4503599627370497
  have h := fl_eval 9007199254740994 53 4503599627370497 (by norm_num)
    (by norm_num) (by norm_num) (by norm_num) hr
  rw [h]
  norm_num

/-- Binary64 trace after depositing 1.0. -/
def accB1 : Account :=
  { id := 1, available := 1, held := 0, total := 1, locked := false
    transactions := [depositRec 1 1 1] }

/-- Binary64 trace after further depositing 2^53: the exact sum 2^53 + 1
is not representable and rounds down to 2^53. -/
def accB2 : Account :=
  { id := 1, available := 9007199254740992, held := 0
    total := 9007199254740992, locked := false
    transactions := [depositRec 1 2 9007199254740992, depositRec 1 1 1] }

/-- Binary64 trace after further depositing 2.0 (2^53 + 2 is
representable). -/
def accB3 : Account :=
  { id := 1, available := 9007199254740994, held := 0
    total := 9007199254740994, locked := false
    transactions := [depositRec 1 3 2, depositRec 1 2 9007199254740992,
      depositRec 1 1 1] }

/-- Binary64 trace after disputing transaction 1: available becomes
fl(2^53 + 2 - 1) = 2^53, held becomes 1, total stays 2^53 + 2. -/
def accB4 : Account :=
  { id := 1, available := 9007199254740992, held := 1
    total := 9007199254740994, locked := false
    transactions := [depositRec 1 3 2, depositRec 1 2 9007199254740992,
      { depositRec 1 1 1 with disputed := true }] }

/-- Binary64 trace after resolving transaction 1: available becomes
fl(2^53 + 1) = 2^53 again — the round-trip does not restore 2^53 + 2. -/
def accB5 : Account :=
  { id := 1, available := 9007199254740992, held := 0
    total := 9007199254740994, locked := false
    transactions := [depositRec 1 3 2, depositRec 1 2 9007199254740992,
      depositRec 1 1 1] }

/-- Step 1 of the binary64 trace. -/
theorem applyB1 : (Account.new 1).apply_transaction64 (depositRec 1 1 1)
    = (accB1, none) := by
  norm_num [Account.apply_transaction64, Account.deposit64,
    Account.add_transaction, Account.new, depositRec, insertTx, accB1,
    fl_one]

/-- Step 2 of the binary64 trace: fl(1 + 2^53) = 2^53. -/
theorem applyB2 : accB1.apply_transaction64
    (depositRec 1 2 9007199254740992) = (accB2, none) := by
  norm_num [Account.apply_transaction64, Account.deposit64,
    Account.add_transaction, depositRec, insertTx, List.filter_cons,
    accB1, accB2, fl_pow53_add_one]

/-- Step 3 of the binary64 trace: fl(2^53 + 2) = 2^53 + 2. -/
theorem applyB3 : accB2.apply_transaction64 (depositRec 1 3 2)
    = (accB3, none) := by
  norm_num [Account.apply_transaction64, Account.deposit64,
    Account.add_transaction, depositRec, insertTx, List.filter_cons,
    accB2, accB3, fl_pow53_add_two]

/-- Step 4 of the binary64 trace: the dispute of transaction 1 rounds
available to fl(2^53 + 1) = 2^53 while total keeps 2^53 + 2. -/
theorem applyB4 : accB3.apply_transaction64 (disputeRec 1 1)
    = (accB4, none) := by
  norm_num [Account.apply_transaction64, Account.dispute64, depositRec,
    disputeRec, lookupTx, updateTx, List.find?_cons, accB3, accB4,
    fl_pow53_add_one, fl_one]

/-- Step 5 of the binary64 trace: the resolve of transaction 1 rounds
available to fl(2^53 + 1) = 2^53 once more. -/
theorem applyB5 : accB4.apply_transaction64 (resolveRec 1 1)
    = (accB5, none) := by
  norm_num [Account.apply_transaction64, Account.resolve64, depositRec,
    resolveRec, lookupTx, updateTx, List.find?_cons, accB4, accB5,
    fl_pow53_add_one, fl_zero]

/-- Counterexample to C1: under the program's binary64 arithmetic, the
accepted sequence deposit 1.0, deposit 2^53, deposit 2.0, dispute tx 1
reaches a state with total = 2^53 + 2 but available + held = 2^53 + 1 —
`total = available + held` fails as exact f64 equality. -/
theorem f64_reachable_total_ne_available_add_held :
    (applyAll64 (Account.new 1)
        [depositRec 1 1 1, depositRec 1 2 9007199254740992,
          depositRec 1 3 2, disputeRec 1 1]).total
      ≠ (applyAll64 (Account.new 1)
          [depositRec 1 1 1, depositRec 1 2 9007199254740992,
            depositRec 1 3 2, disputeRec 1 1]).available
        + (applyAll64 (Account.new 1)
            [depositRec 1 1 1, depositRec 1 2 9007199254740992,
              depositRec 1 3 2, disputeRec 1 1]).held := by
  have hall : applyAll64 (Account.new 1)
      [depositRec 1 1 1, depositRec 1 2 9007199254740992,
        depositRec 1 3 2, disputeRec 1 1] = accB4 := by
    simp [applyAll64, applyB1, applyB2, applyB3, applyB4]
  rw [hall]
  norm_num [accB4]

/-- Counterexample to C8: under the program's binary64 arithmetic, the
reachable state `accB3` (available 2^53 + 2, an undisputed stored 1.0
deposit) is taken by a successful dispute and a successful resolve of
transaction 1 to available 2^53 — the round-trip does not restore
available. -/
theorem f64_dispute_resolve_drifts :
    applyAll64 (Account.new 1)
        [depositRec 1 1 1, depositRec 1 2 9007199254740992,
          depositRec 1 3 2] = accB3 ∧
    accB3.locked = false ∧
    lookupTx accB3.transactions (disputeRec 1 1).id
      = some (depositRec 1 1 1) ∧
    (accB3.apply_transaction64 (disputeRec 1 1)).2 = none ∧
    (((accB3.apply_transaction64 (disputeRec 1 1)).1).apply_transaction64
        (resolveRec 1 1)).2 = none ∧
    ((((accB3.apply_transaction64 (disputeRec 1 1)).1).apply_transaction64
        (resolveRec 1 1)).1).available ≠ accB3.available := by
  refine ⟨?_, rfl, rfl, ?_, ?_, ?_⟩
  · simp [applyAll64, applyB1, applyB2, applyB3]
  · simp [applyB4]
  · simp [applyB4, applyB5]
  · simp [applyB4, applyB5]
    norm_num [accB5, accB3]
